import Mathlib

/-
Verification of the realtime notification server (server.ts).

The repository's single source file contains two drafts of the same server,
separated by a draft marker:

  * draft variant 1 (lines 1-141): one LISTEN channel (comments_channel),
    an inline fan-out loop in the notification handler, and unguarded
    `setTimeout(connectNotifyClient, 3000)` reconnects;
  * draft variant 2 (lines 142-357): a `broadcast(type, data)` helper, two
    LISTEN channels with a dispatch switch, a guarded `scheduleReconnect`
    with a `reconnectTimer` variable, a keepalive interval, and an error
    handler on each WebSocket that deletes the client.

Both are embedded below.  JavaScript's single-threaded event loop is
modelled by an explicit event-step function: each synchronous stretch of
the source between suspension points becomes one atomic transition of
`step`.  In particular the async `connectNotifyClient` is NOT one
transition: its synchronous prefix up to the first resumption
(`connectStart` — teardown of the old client including the `end` event
that `pgClient.end()` makes a live, handler-attached client emit,
clearing of the keepalive interval, creation of the new client) and its
resumption after the connect/LISTEN awaits (`connectResolve`) are
separate transitions, with a count `connecting` of runs suspended in
between, so that overlapping runs and handler firings at the suspension
points are representable.  `setTimeout` / `setInterval` handles are
modelled by a count of actually pending timers plus a Boolean for the
nullable variable (`reconnectTimer`, `keepAliveInterval`) that the source
keeps alongside them, so that nulling the variable without clearing the
timer is visible.
`JSON.parse` of the upstream payload is modelled by an `Option Json`
argument: `none` is a payload on which `JSON.parse` throws (caught by the
handler's try/catch), `some p` a payload that parses to the JSON value `p`.
`ws.send` is fire-and-forget in the source (no callback, no try/catch); a
transport failure of one send is modelled by a per-peer `sendFails` flag
and surfaces only in which sends are delivered and which error events the
environment may later fire.
-/

/-! ## JSON values and JSON.stringify -/

mutual
inductive Json where
  | null : Json
  | bool : Bool → Json
  | num : Int → Json
  | str : String → Json
  | arr : JsonArr → Json
  | obj : JsonObj → Json

inductive JsonArr where
  | nil : JsonArr
  | cons : Json → JsonArr → JsonArr

inductive JsonObj where
  | nil : JsonObj
  | cons : String → Json → JsonObj → JsonObj
end

/-- Escaping of one character inside a JSON string literal, as
`JSON.stringify` does for the characters that can appear here. -/
def jsonEscapeChar (c : Char) : String :=
  if c = '"' then "\\\""
  else if c = '\\' then "\\\\"
  else if c = '\n' then "\\n"
  else if c = '\r' then "\\r"
  else if c = '\t' then "\\t"
  else String.mk [c]

def jsonEscape (s : String) : String :=
  String.join (s.toList.map jsonEscapeChar)

def renderString (s : String) : String :=
  "\"" ++ jsonEscape s ++ "\""

mutual
/-- `JSON.stringify` on a JSON value (no extra whitespace, fields in
declaration order), the serialization `ws.send` receives in the source. -/
def Json.render : Json → String
  | .null => "null"
  | .bool b => cond b "true" "false"
  | .num n => toString n
  | .str s => renderString s
  | .arr xs => "[" ++ JsonArr.render xs ++ "]"
  | .obj kvs => "\x7b" ++ JsonObj.render kvs ++ "\x7d"

def JsonArr.render : JsonArr → String
  | .nil => ""
  | .cons x .nil => Json.render x
  | .cons x xs => Json.render x ++ "," ++ JsonArr.render xs

def JsonObj.render : JsonObj → String
  | .nil => ""
  | .cons k v .nil => renderString k ++ ":" ++ Json.render v
  | .cons k v kvs => renderString k ++ ":" ++ Json.render v ++ "," ++ JsonObj.render kvs
end

/-! ## Downstream peers and the fan-out loop -/

/-- `ws.readyState` values of the `ws` library. -/
inductive ReadyState where
  | CONNECTING : ReadyState
  | OPEN : ReadyState
  | CLOSING : ReadyState
  | CLOSED : ReadyState
deriving DecidableEq, Repr

/-- One downstream WebSocket as the broadcast loop observes it: its object
identity (`id`), its `readyState` at the moment of the liveness check, and
whether a send attempted on it now would fail in transport (`sendFails`,
an environment fact, not a field of the real object). -/
structure Peer where
  id : Nat
  readyState : ReadyState
  sendFails : Bool
deriving DecidableEq, Repr

def idsOf (cs : List Peer) : List Nat := cs.map Peer.id

/-- Outcome of one run of the fan-out loop
`clients.forEach((client) => { if (client.readyState === WebSocket.OPEN) client.send(msg); })`
(variant 2 lines 159-168; the inline loop of variant 1 lines 73-80 is the
same code shape):
`sent` records each send attempted, in registry order, with the exact bytes
handed to `ws.send`; `delivered` the attempted sends that succeed;
`errored` the ids whose attempted send fails in transport (the `ws` library
reports this via a later asynchronous error event, not an exception). -/
structure LoopOut where
  sent : List (Nat × String)
  delivered : List (Nat × String)
  errored : List Nat
deriving DecidableEq, Repr

def broadcastLoop (msg : String) : List Peer → LoopOut
  | [] => ⟨[], [], []⟩
  | c :: rest =>
    let out := broadcastLoop msg rest
    if c.readyState = ReadyState.OPEN then
      if c.sendFails then
        ⟨(c.id, msg) :: out.sent, out.delivered, c.id :: out.errored⟩
      else
        ⟨(c.id, msg) :: out.sent, (c.id, msg) :: out.delivered, out.errored⟩
    else out

/-- The envelope `JSON.stringify({ type, data })` built inside the loop. -/
def envelope (type_ : String) (data : Json) : Json :=
  Json.obj (.cons "type" (.str type_) (.cons "data" data .nil))

/-- `broadcast(type, data)` of variant 2 (lines 158-171).  The source
function returns `undefined`; besides performing the sends it only logs
"`type` broadcasted to `clients.size` clients", so the one count it
surfaces is the total registry size, recorded here as `loggedCount`. -/
structure BroadcastOut extends LoopOut where
  loggedCount : Nat
deriving DecidableEq, Repr

def broadcast (type_ : String) (data : Json) (cs : List Peer) : BroadcastOut :=
  { broadcastLoop ((envelope type_ data).render) cs with loggedCount := cs.length }

/-- The `pgClient.on("notification", ...)` handler of variant 2
(lines 255-286): `JSON.parse` inside try/catch (`none` = parse threw, the
catch logs and does nothing else), then a switch on `msg.channel`
dispatching `comments_channel` to `NEW_COMMENT`, `messages_channel` to
`NEW_MESSAGE`, and warning-only on any other channel.  `none` as result
means no broadcast was performed. -/
def handleNotification (cs : List Peer) (channel : String) (payload : Option Json) :
    Option BroadcastOut :=
  match payload with
  | none => none
  | some p =>
    if channel = "comments_channel" then some (broadcast "NEW_COMMENT" p cs)
    else if channel = "messages_channel" then some (broadcast "NEW_MESSAGE" p cs)
    else none

/-- The handshake acknowledgement sent in the `wss.on("connection")`
handler (variant 2 lines 186-189, variant 1 lines 26-29). -/
def connEstablishedMsg : String :=
  (Json.obj (.cons "type" (.str "CONNECTION_ESTABLISHED")
    (.cons "message" (.str "Connected!") .nil))).render

/-! ## Server state and the event-step semantics (variant 2) -/

/-- The mutable module-level state of variant 2, plus the chronological
log `deliveries` of every message actually delivered to a peer (ghost
observation, not a source variable).  `linkSubscribed` is the abstract
link condition "connected and LISTENs issued, link not since failed";
`pgLive` says the current client is connected with its `end`/`error`
handlers attached (lines 288-296), so that `pgClient.end()` on it emits
`end` — which the handler at lines 293-296 turns into a
`scheduleReconnect()` — and so that error/end events can fire on it; the
source keeps neither variable, but every transition below sets them
exactly when the modelled real-world condition changes.  `connecting`
counts the `connectNotifyClient` runs currently suspended at their
connect/LISTEN awaits (overlapping runs are possible and significant).
`reconnectPending` / `keepAlivePending` count the timers that actually
exist in the runtime; `reconnectTimerVar` / `keepAliveVar` model the
nullable variables `reconnectTimer` / `keepAliveInterval`. -/
structure ServerState where
  clients : List Peer
  deliveries : List (Nat × String)
  pgClientExists : Bool
  pgLive : Bool
  linkSubscribed : Bool
  connecting : Nat
  reconnectTimerVar : Bool
  reconnectPending : Nat
  keepAliveVar : Bool
  keepAlivePending : Nat
deriving DecidableEq, Repr

/-- `scheduleReconnect()` (variant 2 lines 300-306): a no-op when
`reconnectTimer` is non-null, otherwise one new 5s timeout. -/
def scheduleReconnect (s : ServerState) : ServerState :=
  if s.reconnectTimerVar then s
  else { s with reconnectTimerVar := true, reconnectPending := s.reconnectPending + 1 }

/-- The synchronous tail of `connectNotifyClient`'s prefix after the old
client is gone (variant 2 lines 218-227 plus the call into
`pgClient.connect()`): clear the keepalive interval held by the variable,
assign a fresh (not yet live) client, and suspend this run at its
connect/LISTEN awaits. -/
def connectStartTail (s : ServerState) : ServerState :=
  { s with pgClientExists := true
         , pgLive := false
         , keepAliveVar := false
         , keepAlivePending := s.keepAlivePending - (if s.keepAliveVar then 1 else 0)
         , connecting := s.connecting + 1 }

/-- A call of `connectNotifyClient()` (variant 2 lines 209-253) up to its
first resumption.  Lines 211-216 first end any existing client: on a
live, handler-attached client `pgClient.end()` makes it emit `end`
(enqueued with `process.nextTick`, which runs before the awaiting
continuation resumes), and the `end` handler of lines 293-296 calls
`scheduleReconnect()` — the cascade that arms a reconnect timeout in the
middle of the run; ending a client whose connection never got established
emits nothing.  Then the run clears the keepalive interval, creates the
new client and suspends awaiting connect + LISTENs
(`connectStartTail`). -/
def connectStart (s : ServerState) : ServerState :=
  connectStartTail
    (if s.pgClientExists && s.pgLive then
      scheduleReconnect { s with linkSubscribed := false, pgLive := false }
    else s)

/-- Resumption of one suspended `connectNotifyClient` run (variant 2
lines 230-253 after the awaits, plus the handler attachments at lines
255-296).  On success: arm one keepalive interval (line 239), null
`reconnectTimer` (line 249 — an assignment only, with no `clearTimeout`
anywhere in the file, so a timeout armed mid-run is orphaned, not
cancelled), and the connected client with its handlers attached is live.
On failure: the catch calls `scheduleReconnect()`; the handlers are
attached to the never-connected client, which stays non-live. -/
def connectResolve (s : ServerState) (ok : Bool) : ServerState :=
  if ok then
    { s with connecting := s.connecting - 1
           , linkSubscribed := true
           , pgLive := true
           , keepAliveVar := true
           , keepAlivePending := s.keepAlivePending + 1
           , reconnectTimerVar := false }
  else
    scheduleReconnect { s with connecting := s.connecting - 1, pgLive := false }

/-- The `wss.on("connection")` handler (variant 2 lines 182-199):
`clients.add(ws)` — a `Set`, so adding a present element changes nothing —
then `ws.send` of the handshake acknowledgement (delivered unless that
send fails in transport). -/
def onConnection (s : ServerState) (p : Peer) : ServerState :=
  { s with
      clients := if p.id ∈ idsOf s.clients then s.clients else s.clients ++ [p]
    , deliveries :=
        s.deliveries ++ (if p.sendFails then [] else [(p.id, connEstablishedMsg)]) }

/-- The per-socket `close` and `error` handlers (variant 2 lines 191-199)
both run `clients.delete(ws)`; peer identity is `id`. -/
def removeClient (s : ServerState) (i : Nat) : ServerState :=
  { s with clients := s.clients.filter (fun c => c.id ≠ i) }

/-- The events the runtime can deliver to variant 2's callbacks.  A bare
start of `connectNotifyClient` is not an event: in the source it is
invoked only by `startServer()` (once, first) and by the
reconnect-timeout callback, which `reconnectFire` models; `connectResolve`
resumes one run suspended at its connect/LISTEN awaits. -/
inductive Event where
  | wsConnect : Peer → Event
  | wsClose : Nat → Event
  | wsError : Nat → Event
  | notify : String → Option Json → Event
  | pgError : Event
  | pgEnd : Event
  | keepAliveFail : Event
  | reconnectFire : Event
  | connectResolve : Bool → Event

/-- One event-loop turn.  `pgError` / `pgEnd` are the `pgClient.on` error
and end handlers (lines 288-296), firing only on a live, handler-attached
client (an error such as an idle-time ErrorResponse need not terminate
the connection, so `pgError` leaves `pgLive` set; `pgEnd` is the
connection actually ending); `keepAliveFail` is a keepalive tick whose
`SELECT 1` fails (lines 239-248 and 309-318), possible only while some
keepalive interval is armed and `pgClient` is non-null; `reconnectFire`
is the reconnect-timeout callback (lines 302-305): null the variable,
consume the timeout, and run `connectNotifyClient` synchronously up to
its first resumption; `connectResolve ok` resumes one suspended run with
outcome `ok` of its connect-and-LISTEN sequence. -/
def step (s : ServerState) : Event → ServerState
  | .wsConnect p => onConnection s p
  | .wsClose i => removeClient s i
  | .wsError i => removeClient s i
  | .notify ch pl =>
    match handleNotification s.clients ch pl with
    | none => s
    | some out => { s with deliveries := s.deliveries ++ out.delivered }
  | .pgError =>
    if s.pgLive then scheduleReconnect { s with linkSubscribed := false } else s
  | .pgEnd =>
    if s.pgLive then
      scheduleReconnect { s with linkSubscribed := false, pgLive := false }
    else s
  | .keepAliveFail =>
    if s.keepAlivePending ≠ 0 ∧ s.pgClientExists then
      scheduleReconnect { s with linkSubscribed := false }
    else s
  | .reconnectFire =>
    if s.reconnectPending ≠ 0 then
      connectStart
        { s with reconnectPending := s.reconnectPending - 1, reconnectTimerVar := false }
    else s
  | .connectResolve ok =>
    if s.connecting ≠ 0 then connectResolve s ok else s

def run (s : ServerState) : List Event → ServerState
  | [] => s
  | e :: evs => run (step s e) evs

/-- Module state of variant 2 as evaluation reaches `startServer()`
(line 356): no clients, no pg client, and the module-level
`setInterval` of line 309 already armed and held in `keepAliveInterval`. -/
def initState : ServerState :=
  { clients := []
  , deliveries := []
  , pgClientExists := false
  , pgLive := false
  , linkSubscribed := false
  , connecting := 0
  , reconnectTimerVar := false
  , reconnectPending := 0
  , keepAliveVar := true
  , keepAlivePending := 1 }

/-- States after an uninterrupted startup: `startServer()` awaits
`connectNotifyClient()` — whose first run starts and resolves with some
outcome `ok` with nothing interleaved — then any sequence of runtime
events is processed.  (Interleavings during startup reach further states
via `run` directly.) -/
def reachedState (ok : Bool) (evs : List Event) : ServerState :=
  run (connectResolve (connectStart initState) ok) evs

/-- The messages peer `i` has received, in order. -/
def inbox (i : Nat) (s : ServerState) : List String :=
  (s.deliveries.filter (fun d => d.1 = i)).map (fun d => d.2)

/-- The `process.on("SIGINT")` handler (variant 2 lines 346-354):
`try { if (pgClient) await pgClient.end(); } catch (err) { console.error(err); }`
then `process.exit(0)`.  `endFails` says whether `pgClient.end()` throws
(the catch logs and falls through either way).  On a live,
handler-attached client a successful `end()` emits `end`
(`process.nextTick`, before the awaiting continuation resumes), so the
`end` handler's `scheduleReconnect()` runs before `process.exit(0)`
does.  The result's second component is the exit code.  No timer is
cleared anywhere in the handler. -/
def sigintHandler (s : ServerState) (endFails : Bool) : ServerState × Nat :=
  ( if s.pgClientExists && !endFails && s.pgLive then
      scheduleReconnect { s with linkSubscribed := false, pgLive := false }
    else s
  , 0 )

/-! ## Variant 1's reconnect scheduling -/

/-- Reconnect-relevant state of draft variant 1 (lines 61-102): it has no
`reconnectTimer` variable at all, only whatever timeouts exist in the
runtime. -/
structure V1State where
  reconnectPending : Nat
  linkSubscribed : Bool
deriving DecidableEq, Repr

inductive V1Event where
  | pgError : V1Event
  | connectFail : V1Event
  | timerFire : Bool → V1Event

/-- Variant 1's reconnect paths: the `pg.on("error")` handler (lines
87-91) and the connect-failure catch (lines 98-101) each run
`setTimeout(connectNotifyClient, 3000)` unconditionally — one new pending
timeout each time, with no guard and no variable to deduplicate. -/
def v1Step (s : V1State) : V1Event → V1State
  | .pgError => { s with linkSubscribed := false, reconnectPending := s.reconnectPending + 1 }
  | .connectFail => { s with linkSubscribed := false, reconnectPending := s.reconnectPending + 1 }
  | .timerFire ok =>
    if s.reconnectPending ≠ 0 then
      { s with reconnectPending := s.reconnectPending - 1, linkSubscribed := ok }
    else s

def v1Run (s : V1State) : List V1Event → V1State
  | [] => s
  | e :: evs => v1Run (v1Step s e) evs

def v1Init : V1State := { reconnectPending := 0, linkSubscribed := false }

/-! ## Characterization of the fan-out loop -/

lemma broadcastLoop_out (msg : String) (cs : List Peer) :
    broadcastLoop msg cs =
      ⟨ (cs.filter (fun c => c.readyState = ReadyState.OPEN)).map (fun c => (c.id, msg))
      , (cs.filter (fun c => c.readyState = ReadyState.OPEN ∧ c.sendFails = false)).map
          (fun c => (c.id, msg))
      , (cs.filter (fun c => c.readyState = ReadyState.OPEN ∧ c.sendFails = true)).map
          Peer.id ⟩ := by
  induction cs with
  | nil => rfl
  | cons c rest ih =>
    simp only [broadcastLoop, ih, List.filter_cons]
    by_cases ho : c.readyState = ReadyState.OPEN
    · by_cases hf : c.sendFails
      · simp [ho, hf]
      · simp [ho, hf]
    · simp [ho]

lemma broadcast_sent (type_ : String) (data : Json) (cs : List Peer) :
    (broadcast type_ data cs).sent =
      (cs.filter (fun c => c.readyState = ReadyState.OPEN)).map
        (fun c => (c.id, (envelope type_ data).render)) := by
  simp [broadcast, broadcastLoop_out]

lemma broadcast_delivered (type_ : String) (data : Json) (cs : List Peer) :
    (broadcast type_ data cs).delivered =
      (cs.filter (fun c => c.readyState = ReadyState.OPEN ∧ c.sendFails = false)).map
        (fun c => (c.id, (envelope type_ data).render)) := by
  simp [broadcast, broadcastLoop_out]

lemma broadcast_errored (type_ : String) (data : Json) (cs : List Peer) :
    (broadcast type_ data cs).errored =
      (cs.filter (fun c => c.readyState = ReadyState.OPEN ∧ c.sendFails = true)).map
        Peer.id := by
  simp [broadcast, broadcastLoop_out]

lemma broadcast_delivered_ids (type_ : String) (data : Json) (cs : List Peer) :
    ∀ d ∈ (broadcast type_ data cs).delivered, d.1 ∈ idsOf cs := by
  intro d hd
  rw [broadcast_delivered] at hd
  rcases List.mem_map.mp hd with ⟨c, hc, rfl⟩
  exact List.mem_map.mpr ⟨c, List.mem_of_mem_filter hc, rfl⟩

/-- C3.  During every broadcast, a send is attempted on a peer exactly when
its `readyState` is `OPEN` at the moment of the check (the loop's guard,
variant 2 line 160, variant 1 line 74): the attempted sends are precisely
the open peers in registry order, a send succeeds exactly on the open
peers whose transport does not fail, and a transport error can only arise
from an open peer — no send ever targets a connecting, closing or closed
peer. -/
theorem claim_C3_liveness_guard (msg : String) (cs : List Peer) :
    (broadcastLoop msg cs).sent =
      (cs.filter (fun c => c.readyState = ReadyState.OPEN)).map (fun c => (c.id, msg))
    ∧ (broadcastLoop msg cs).delivered =
      (cs.filter (fun c => c.readyState = ReadyState.OPEN ∧ c.sendFails = false)).map
        (fun c => (c.id, msg))
    ∧ (broadcastLoop msg cs).errored =
      (cs.filter (fun c => c.readyState = ReadyState.OPEN ∧ c.sendFails = true)).map
        Peer.id := by
  simp [broadcastLoop_out]

/-- C1.  For a notification whose payload parses to the JSON value `p`:
on `comments_channel` the handler sends every open peer exactly the bytes
of `JSON.stringify({ type: "NEW_COMMENT", data: p })` with `p` carried
verbatim as the `data` field; on `messages_channel` likewise with
`NEW_MESSAGE`; when no transport send fails these are also exactly the
deliveries; on a channel outside the dispatch switch the handler produces
no broadcast at all and no peer is sent anything. -/
theorem claim_C1_dispatch (cs : List Peer) (p : Json) :
    (handleNotification cs "comments_channel" (some p)).map (fun o => o.sent)
      = some ((cs.filter (fun c => c.readyState = ReadyState.OPEN)).map
          (fun c => (c.id, (envelope "NEW_COMMENT" p).render)))
    ∧ (handleNotification cs "messages_channel" (some p)).map (fun o => o.sent)
      = some ((cs.filter (fun c => c.readyState = ReadyState.OPEN)).map
          (fun c => (c.id, (envelope "NEW_MESSAGE" p).render)))
    ∧ ((∀ c ∈ cs, c.sendFails = false) →
        (handleNotification cs "comments_channel" (some p)).map (fun o => o.delivered)
          = some ((cs.filter (fun c => c.readyState = ReadyState.OPEN)).map
              (fun c => (c.id, (envelope "NEW_COMMENT" p).render))))
    ∧ (∀ ch, ch ≠ "comments_channel" → ch ≠ "messages_channel" →
        handleNotification cs ch (some p) = none) := by
  refine ⟨?_, ?_, ?_, ?_⟩
  · simp [handleNotification, broadcast_sent]
  · simp [handleNotification, broadcast_sent]
  · intro hok
    simp only [handleNotification, if_true, Option.map_some', broadcast_delivered,
      Option.some.injEq]
    congr 1
    refine List.filter_congr (fun c hc => ?_)
    simp [hok c hc]
  · intro ch h1 h2
    simp [handleNotification, h1, h2]

/-- Witness for C1: the spec's end-to-end scenarios.  One open peer;
payload `{"id":1,"text":"hi"}` on `comments_channel` is delivered as
exactly `{"type":"NEW_COMMENT","data":{"id":1,"text":"hi"}}`, and on
`unknown_channel` nothing is produced. -/
theorem claim_C1_dispatch_witness :
    (handleNotification [⟨0, ReadyState.OPEN, false⟩] "comments_channel"
        (some (Json.obj (.cons "id" (.num 1) (.cons "text" (.str "hi") .nil))))).map
        (fun o => o.delivered)
      = some [(0, "\x7b\"type\":\"NEW_COMMENT\",\"data\":\x7b\"id\":1,\"text\":\"hi\"\x7d\x7d")]
    ∧ handleNotification [⟨0, ReadyState.OPEN, false⟩] "unknown_channel"
        (some (Json.obj (.cons "id" (.num 1) (.cons "text" (.str "hi") .nil)))) = none := by
  have h := claim_C1_dispatch [⟨0, ReadyState.OPEN, false⟩]
    (Json.obj (.cons "id" (.num 1) (.cons "text" (.str "hi") .nil)))
  refine ⟨?_, h.2.2.2 "unknown_channel" (by decide) (by decide)⟩
  rw [h.2.2.1 (by decide)]
  decide

/-- C7.  A notification whose payload `JSON.parse` rejects is entirely
local: the handler's catch logs and drops it, the whole server state —
registry, deliveries, link condition, client and timer fields — is
unchanged (the subscribed channel set is a constant of the source and has
no state at all), no broadcast output is produced, and processing
continues with the remaining events exactly as if the malformed
notification had never arrived. -/
theorem claim_C7_decode_error (s : ServerState) (ch : String) (rest : List Event) :
    step s (Event.notify ch none) = s
    ∧ run s (Event.notify ch none :: rest) = run s rest
    ∧ (∀ cs, handleNotification cs ch none = none) := by
  refine ⟨rfl, rfl, fun cs => rfl⟩

/-- Counterexample to C10 as stated: `broadcast` does not return (or even
log) the count of peers successfully sent to.  With one open peer and one
closed peer, one message is delivered but the function's only surfaced
count — the logged `clients.size` — is 2. -/
theorem claim_C10_counterexample :
    ¬ ((broadcast "NEW_COMMENT" Json.null
          [⟨0, ReadyState.OPEN, false⟩, ⟨1, ReadyState.CLOSED, false⟩]).loggedCount
        = (broadcast "NEW_COMMENT" Json.null
          [⟨0, ReadyState.OPEN, false⟩, ⟨1, ReadyState.CLOSED, false⟩]).delivered.length) := by
  decide

/-- C10 amended: `broadcast` returns no value and logs the total registry
size, which equals the number of successful sends only when every
registered peer is live; a broadcast to a registry of N live peers with no
transport failures delivers exactly N messages, each byte-identical to the
constructed envelope. -/
theorem claim_C10_amended (type_ : String) (data : Json) (cs : List Peer)
    (h : ∀ c ∈ cs, c.readyState = ReadyState.OPEN ∧ c.sendFails = false) :
    (broadcast type_ data cs).delivered
      = cs.map (fun c => (c.id, (envelope type_ data).render))
    ∧ (broadcast type_ data cs).delivered.length = cs.length
    ∧ (∀ d ∈ (broadcast type_ data cs).delivered, d.2 = (envelope type_ data).render)
    ∧ (broadcast type_ data cs).loggedCount = cs.length := by
  have hfilter : cs.filter (fun c => c.readyState = ReadyState.OPEN ∧ c.sendFails = false)
      = cs := by
    apply List.filter_eq_self.mpr
    intro c hc
    simpa using h c hc
  have hdel := broadcast_delivered type_ data cs
  rw [hfilter] at hdel
  refine ⟨hdel, by rw [hdel]; simp, ?_, rfl⟩
  intro d hd
  rw [hdel] at hd
  rcases List.mem_map.mp hd with ⟨c, _, rfl⟩
  rfl

/-- Witness for C10 amended: two live peers, payload `null`; exactly two
byte-identical deliveries, and the logged count also reads 2. -/
theorem claim_C10_amended_witness :
    (broadcast "NEW_MESSAGE" Json.null
        [⟨3, ReadyState.OPEN, false⟩, ⟨7, ReadyState.OPEN, false⟩]).delivered
      = [(3, "\x7b\"type\":\"NEW_MESSAGE\",\"data\":null\x7d"),
         (7, "\x7b\"type\":\"NEW_MESSAGE\",\"data\":null\x7d")]
    ∧ (broadcast "NEW_MESSAGE" Json.null
        [⟨3, ReadyState.OPEN, false⟩, ⟨7, ReadyState.OPEN, false⟩]).delivered.length = 2 := by
  have h := claim_C10_amended "NEW_MESSAGE" Json.null
    [⟨3, ReadyState.OPEN, false⟩, ⟨7, ReadyState.OPEN, false⟩] (by decide)
  refine ⟨?_, h.2.1⟩
  rw [h.1]
  decide

/-! ## Timer scheduling facts (variant 2) -/

lemma scheduleReconnect_noop {s : ServerState} (h : s.reconnectTimerVar = true) :
    scheduleReconnect s = s := by
  unfold scheduleReconnect
  simp [h]

lemma scheduleReconnect_arm {s : ServerState} (h : s.reconnectTimerVar = false) :
    (scheduleReconnect s).reconnectPending = s.reconnectPending + 1
    ∧ (scheduleReconnect s).reconnectTimerVar = true := by
  unfold scheduleReconnect
  simp [h]

lemma scheduleReconnect_keepAlive (s : ServerState) :
    (scheduleReconnect s).keepAlivePending = s.keepAlivePending := by
  unfold scheduleReconnect
  split <;> rfl

lemma scheduleReconnect_keepAliveVar (s : ServerState) :
    (scheduleReconnect s).keepAliveVar = s.keepAliveVar := by
  unfold scheduleReconnect
  split <;> rfl

lemma scheduleReconnect_link (s : ServerState) :
    (scheduleReconnect s).linkSubscribed = s.linkSubscribed := by
  unfold scheduleReconnect
  split <;> rfl

lemma scheduleReconnect_pgLive (s : ServerState) :
    (scheduleReconnect s).pgLive = s.pgLive := by
  unfold scheduleReconnect
  split <;> rfl

lemma connectStart_keepAlive (s : ServerState) :
    (connectStart s).keepAliveVar = false
    ∧ (connectStart s).keepAlivePending
      = s.keepAlivePending - (if s.keepAliveVar then 1 else 0) := by
  unfold connectStart connectStartTail
  split
  · refine ⟨rfl, ?_⟩
    rw [scheduleReconnect_keepAlive, scheduleReconnect_keepAliveVar]
  · exact ⟨rfl, rfl⟩

/-- Counterexample to C4 as stated: in draft variant 1 the reconnect paths
(`pg.on("error")` handler and the connect-failure catch) call
`setTimeout(connectNotifyClient, 3000)` with no guard and no timer
variable, so two transport errors on the upstream client leave two pending
reconnect timeouts outstanding at once — the claimed "at most one pending
reconnect timer at every instant, in every reachable state" is false. -/
theorem claim_C4_counterexample :
    ¬ ((v1Run v1Init [V1Event.pgError, V1Event.pgError]).reconnectPending ≤ 1) := by
  decide

/-- C4 amended: `scheduleReconnect`'s guard (variant 2 lines 300-306)
makes a reconnect request arriving while `reconnectTimer` is non-null a
no-op, and a failure detected on the live link while no reconnect timer
is held schedules exactly one new timeout; but at-most-one-pending is an
invariant of neither variant: in variant 2 a reconnect cycle's teardown
of the still-live old client fires its `end` handler mid-run, the timeout
that handler arms is orphaned by line 249's null-without-`clearTimeout`,
and one subsequent error then leaves two pending reconnect timeouts
(concretely: startup, an upstream error, the reconnect firing and
resolving successfully, and a second upstream error reach a state with
two pending timeouts); variant 1 schedules unconditionally. -/
theorem claim_C4_amended :
    (∀ s : ServerState, s.reconnectTimerVar = true → scheduleReconnect s = s)
    ∧ (∀ s : ServerState, s.pgLive = true → s.reconnectTimerVar = false →
        (step s Event.pgError).reconnectPending = s.reconnectPending + 1
        ∧ (step s Event.pgEnd).reconnectPending = s.reconnectPending + 1)
    ∧ (∀ s : ServerState, s.pgLive = true → s.reconnectTimerVar = true →
        step s Event.pgError = { s with linkSubscribed := false })
    ∧ (reachedState true [Event.pgError, Event.reconnectFire,
        Event.connectResolve true, Event.pgError]).reconnectPending = 2 := by
  refine ⟨?_, ?_, ?_, by decide⟩
  · intro s hv
    exact scheduleReconnect_noop hv
  · intro s hl hv
    constructor
    · simp only [step]
      split
      next => exact (scheduleReconnect_arm
        (s := { s with linkSubscribed := false }) hv).1
      next hc => exact absurd hl hc
    · simp only [step]
      split
      next => exact (scheduleReconnect_arm
        (s := { s with linkSubscribed := false, pgLive := false }) hv).1
      next hc => exact absurd hl hc
  · intro s hl hv
    simp only [step]
    split
    next => exact scheduleReconnect_noop (s := { s with linkSubscribed := false }) hv
    next hc => exact absurd hl hc

/-- Witness for C4 amended: a schedule request on a state already holding
a timer is a no-op; an error on the freshly subscribed startup state arms
exactly one; and the error / fire / resolve / error trace reaches two
pending reconnect timeouts. -/
theorem claim_C4_amended_witness :
    scheduleReconnect { initState with reconnectTimerVar := true, reconnectPending := 1 }
      = { initState with reconnectTimerVar := true, reconnectPending := 1 }
    ∧ (step (reachedState true []) Event.pgError).reconnectPending
      = (reachedState true []).reconnectPending + 1
    ∧ (reachedState true [Event.pgError, Event.reconnectFire,
        Event.connectResolve true, Event.pgError]).reconnectPending = 2 := by
  have h := claim_C4_amended
  exact ⟨h.1 _ rfl, (h.2.1 (reachedState true []) (by decide) (by decide)).1, h.2.2.2⟩

/-- Counterexample to C5 as stated: after a successful startup
subscription, a keepalive failure takes the link out of the subscribed
condition and schedules a reconnect, but nothing cancels the keepalive
interval at that transition — it stays armed (it is cleared only at the
start of the next run of `connectNotifyClient`, 5 seconds later). -/
theorem claim_C5_counterexample :
    ¬ ((reachedState true [Event.keepAliveFail]).linkSubscribed = false →
        (reachedState true [Event.keepAliveFail]).keepAlivePending = 0) := by
  decide

/-- C5 amended: each `connectNotifyClient` run clears the interval held
by `keepAliveInterval` in its synchronous prefix (not at the moment the
link leaves the subscribed condition — failure detection leaves the
interval armed until the reconnect run begins) and arms exactly one
interval per successful resolution; but at-most-one-keepalive is not an
invariant: two runs can overlap (a reconnect timeout armed mid-run by the
old client's `end` handler fires while the first run still awaits its
connect), both pass their clear before either arms, and both then arm —
two concurrent keepalive intervals, of which only the one held by the
variable can ever be cleared (the accumulation the spec flags in its
design notes). -/
theorem claim_C5_amended :
    (∀ s : ServerState, (connectStart s).keepAliveVar = false
        ∧ (connectStart s).keepAlivePending
          = s.keepAlivePending - (if s.keepAliveVar then 1 else 0))
    ∧ (∀ s : ServerState, s.connecting ≠ 0 →
        (step s (Event.connectResolve true)).keepAlivePending = s.keepAlivePending + 1
        ∧ (step s (Event.connectResolve true)).keepAliveVar = true
        ∧ (step s (Event.connectResolve false)).keepAlivePending = s.keepAlivePending)
    ∧ (∀ s : ServerState,
        (step s Event.keepAliveFail).keepAlivePending = s.keepAlivePending
        ∧ (step s Event.pgError).keepAlivePending = s.keepAlivePending
        ∧ (step s Event.pgEnd).keepAlivePending = s.keepAlivePending)
    ∧ (reachedState true [Event.pgError, Event.reconnectFire, Event.reconnectFire,
        Event.connectResolve true, Event.connectResolve true]).keepAlivePending = 2 := by
  refine ⟨connectStart_keepAlive, ?_, ?_, by decide⟩
  · intro s hc
    simp only [step, hc, ne_eq, not_false_iff, if_true]
    refine ⟨?_, ?_, ?_⟩
    · rfl
    · rfl
    · show (connectResolve s false).keepAlivePending = s.keepAlivePending
      unfold connectResolve
      rw [if_neg (by simp), scheduleReconnect_keepAlive]
  · intro s
    refine ⟨?_, ?_, ?_⟩ <;>
      · simp only [step]
        split
        · rw [scheduleReconnect_keepAlive]
        · rfl

/-- Witness for C5 amended: the startup run's prefix clears the
module-level interval; resolving a suspended run successfully arms
exactly one more; and the overlapping-runs trace reaches two concurrent
keepalive intervals. -/
theorem claim_C5_amended_witness :
    (connectStart initState).keepAliveVar = false
    ∧ (step (connectStart initState) (Event.connectResolve true)).keepAlivePending
      = (connectStart initState).keepAlivePending + 1
    ∧ (reachedState true [Event.pgError, Event.reconnectFire, Event.reconnectFire,
        Event.connectResolve true, Event.connectResolve true]).keepAlivePending = 2 := by
  have h := claim_C5_amended
  exact ⟨(h.1 initState).1, (h.2.1 (connectStart initState) (by decide)).1, h.2.2.2⟩
/-! ## The registry across events -/

lemma scheduleReconnect_clients (s : ServerState) :
    (scheduleReconnect s).clients = s.clients := by
  unfold scheduleReconnect
  split <;> rfl

lemma scheduleReconnect_deliveries (s : ServerState) :
    (scheduleReconnect s).deliveries = s.deliveries := by
  unfold scheduleReconnect
  split <;> rfl

lemma connectStart_clients (s : ServerState) :
    (connectStart s).clients = s.clients := by
  unfold connectStart connectStartTail
  split
  · rw [scheduleReconnect_clients]
  · rfl

lemma connectStart_deliveries (s : ServerState) :
    (connectStart s).deliveries = s.deliveries := by
  unfold connectStart connectStartTail
  split
  · rw [scheduleReconnect_deliveries]
  · rfl

lemma connectResolve_clients (s : ServerState) (ok : Bool) :
    (connectResolve s ok).clients = s.clients := by
  unfold connectResolve
  cases ok with
  | true => rfl
  | false => rw [if_neg (by simp), scheduleReconnect_clients]

lemma connectResolve_deliveries (s : ServerState) (ok : Bool) :
    (connectResolve s ok).deliveries = s.deliveries := by
  unfold connectResolve
  cases ok with
  | true => rfl
  | false => rw [if_neg (by simp), scheduleReconnect_deliveries]

lemma handleNotification_delivered_ids {cs : List Peer} {ch : String} {pl : Option Json}
    {out : BroadcastOut} (h : handleNotification cs ch pl = some out) :
    ∀ d ∈ out.delivered, d.1 ∈ idsOf cs := by
  cases pl with
  | none => simp [handleNotification] at h
  | some p =>
    simp only [handleNotification] at h
    by_cases h1 : ch = "comments_channel"
    · rw [if_pos h1, Option.some.injEq] at h
      exact h ▸ broadcast_delivered_ids "NEW_COMMENT" p cs
    · by_cases h2 : ch = "messages_channel"
      · rw [if_neg h1, if_pos h2, Option.some.injEq] at h
        exact h ▸ broadcast_delivered_ids "NEW_MESSAGE" p cs
      · rw [if_neg h1, if_neg h2] at h
        exact absurd h (by simp)

lemma inbox_deliveries_append (i : Nat) (s : ServerState) (t : List (Nat × String)) :
    inbox i { s with deliveries := s.deliveries ++ t }
      = inbox i s ++ (t.filter (fun d => d.1 = i)).map (fun d => d.2) := by
  simp [inbox, List.filter_append]

/-- A peer absent from the registry stays absent and receives nothing, as
long as no connection event carrying its identity occurs. -/
lemma removed_peer_silent (i : Nat) :
    ∀ (evs : List Event) (s : ServerState), i ∉ idsOf s.clients →
      (∀ p : Peer, Event.wsConnect p ∈ evs → p.id ≠ i) →
      i ∉ idsOf (run s evs).clients ∧ inbox i (run s evs) = inbox i s := by
  intro evs
  induction evs with
  | nil => exact fun s h _ => ⟨h, rfl⟩
  | cons e evs ih =>
    intro s hi hadm
    have hstep : i ∉ idsOf (step s e).clients ∧ inbox i (step s e) = inbox i s := by
      cases e with
      | wsConnect p =>
        have hp : p.id ≠ i := hadm p (List.mem_cons_self _ _)
        constructor
        · simp only [step, onConnection, idsOf]
          split
          · exact hi
          · simp only [List.map_append, List.map_cons, List.map_nil]
            intro hmem
            rcases List.mem_append.mp hmem with hl | hr
            · exact hi hl
            · simp only [List.mem_singleton] at hr
              exact hp hr.symm
        · simp only [step, onConnection, inbox, List.filter_append, List.map_append]
          by_cases hf : p.sendFails
          · simp [hf]
          · simp [hf, hp]
      | wsClose j =>
        refine ⟨?_, rfl⟩
        simp only [step, removeClient, idsOf, List.mem_map]
        rintro ⟨c, hc, rfl⟩
        exact hi (List.mem_map.mpr ⟨c, List.mem_of_mem_filter hc, rfl⟩)
      | wsError j =>
        refine ⟨?_, rfl⟩
        simp only [step, removeClient, idsOf, List.mem_map]
        rintro ⟨c, hc, rfl⟩
        exact hi (List.mem_map.mpr ⟨c, List.mem_of_mem_filter hc, rfl⟩)
      | notify ch pl =>
        simp only [step]
        cases hout : handleNotification s.clients ch pl with
        | none => exact ⟨hi, rfl⟩
        | some out =>
          refine ⟨hi, ?_⟩
          rw [inbox_deliveries_append]
          have hids := handleNotification_delivered_ids hout
          have hnil : out.delivered.filter (fun d => d.1 = i) = [] := by
            rw [List.filter_eq_nil_iff]
            intro d hd
            simp only [decide_eq_true_eq]
            intro hdi
            exact hi (hdi ▸ hids d hd)
          simp [hnil]
      | pgError =>
        simp only [step]
        split
        · refine ⟨?_, ?_⟩
          · rw [scheduleReconnect_clients]
            exact hi
          · unfold inbox
            rw [scheduleReconnect_deliveries]
        · exact ⟨hi, rfl⟩
      | pgEnd =>
        simp only [step]
        split
        · refine ⟨?_, ?_⟩
          · rw [scheduleReconnect_clients]
            exact hi
          · unfold inbox
            rw [scheduleReconnect_deliveries]
        · exact ⟨hi, rfl⟩
      | keepAliveFail =>
        simp only [step]
        split
        · refine ⟨?_, ?_⟩
          · rw [scheduleReconnect_clients]
            exact hi
          · unfold inbox
            rw [scheduleReconnect_deliveries]
        · exact ⟨hi, rfl⟩
      | reconnectFire =>
        simp only [step]
        split
        · refine ⟨?_, ?_⟩
          · rw [connectStart_clients]
            exact hi
          · unfold inbox
            rw [connectStart_deliveries]
        · exact ⟨hi, rfl⟩
      | connectResolve ok =>
        simp only [step]
        split
        · refine ⟨?_, ?_⟩
          · rw [connectResolve_clients]
            exact hi
          · unfold inbox
            rw [connectResolve_deliveries]
        · exact ⟨hi, rfl⟩
    have htail := ih (step s e) hstep.1 (fun p hp => hadm p (List.mem_cons_of_mem _ hp))
    exact ⟨htail.1, htail.2.trans hstep.2⟩

/-- Counterexample to C2 as stated: a registry holding one open peer whose
send fails.  The broadcast performed for a `comments_channel` notification
attempts and fails the send (`errored = [0]`), yet the broadcast itself
removes nothing — the failing peer is still in the registry when the
broadcast completes, because `broadcast` (and the inline loop of variant
1) contains no eviction code at all. -/
theorem claim_C2_counterexample :
    (broadcast "NEW_COMMENT" Json.null [⟨0, ReadyState.OPEN, true⟩]).errored = [0]
    ∧ (step { initState with clients := [⟨0, ReadyState.OPEN, true⟩] }
        (Event.notify "comments_channel" (some Json.null))).clients
      = [⟨0, ReadyState.OPEN, true⟩]
    ∧ ¬ (0 ∉ idsOf (step { initState with clients := [⟨0, ReadyState.OPEN, true⟩] }
        (Event.notify "comments_channel" (some Json.null))).clients) := by
  refine ⟨by decide, by decide, by decide⟩

/-- C2 amended: broadcasting never mutates the registry and never
propagates a send failure to its caller (the send is fire-and-forget); a
peer whose socket fails is evicted when its asynchronous `error` event is
processed by the per-socket error handler, and from that point on — absent
a new connection with the same identity — it is not in the registry and
receives no subsequent broadcast. -/
theorem claim_C2_amended (s : ServerState) (i : Nat) (evs : List Event)
    (hadm : ∀ p : Peer, Event.wsConnect p ∈ evs → p.id ≠ i) :
    (∀ ch pl, (step s (Event.notify ch pl)).clients = s.clients)
    ∧ i ∉ idsOf (step s (Event.wsError i)).clients
    ∧ i ∉ idsOf (run (step s (Event.wsError i)) evs).clients
    ∧ inbox i (run (step s (Event.wsError i)) evs) = inbox i (step s (Event.wsError i)) := by
  have hrm : i ∉ idsOf (step s (Event.wsError i)).clients := by
    simp only [step, removeClient, idsOf, List.mem_map]
    rintro ⟨c, hc, rfl⟩
    exact absurd (List.of_mem_filter hc) (by simp)
  have hsil := removed_peer_silent i evs (step s (Event.wsError i)) hrm hadm
  refine ⟨?_, hrm, hsil.1, hsil.2⟩
  intro ch pl
  simp only [step]
  cases handleNotification s.clients ch pl with
  | none => rfl
  | some out => rfl

/-- Witness for C2 amended: a registry with one failing peer (id 5); after
the error event evicts it, a further `comments_channel` notification
reaches no peer with id 5 and id 5 is no longer registered. -/
theorem claim_C2_amended_witness :
    5 ∉ idsOf (run (step { initState with clients := [⟨5, ReadyState.OPEN, true⟩] }
        (Event.wsError 5)) [Event.notify "comments_channel" (some Json.null)]).clients
    ∧ inbox 5 (run (step { initState with clients := [⟨5, ReadyState.OPEN, true⟩] }
        (Event.wsError 5)) [Event.notify "comments_channel" (some Json.null)])
      = inbox 5 (step { initState with clients := [⟨5, ReadyState.OPEN, true⟩] }
        (Event.wsError 5)) := by
  have h := claim_C2_amended { initState with clients := [⟨5, ReadyState.OPEN, true⟩] } 5
    [Event.notify "comments_channel" (some Json.null)]
    (by intro p hp; simp at hp)
  exact ⟨h.2.2.1, h.2.2.2⟩

/-! ## The registry as admitted-minus-removed -/

/-- Identities admitted by the connection events of a trace. -/
def admittedIds : List Event → Finset Nat
  | [] => ∅
  | Event.wsConnect p :: evs => insert p.id (admittedIds evs)
  | _ :: evs => admittedIds evs

/-- Identities removed by close or error events of a trace (the two paths
that run `clients.delete(ws)`). -/
def removedIds : List Event → Finset Nat
  | [] => ∅
  | Event.wsClose i :: evs => insert i (removedIds evs)
  | Event.wsError i :: evs => insert i (removedIds evs)
  | _ :: evs => removedIds evs

/-- No identity in `acc`, nor one removed along the trace, is admitted
later in the trace.  True of the real Gateway: each connection event
carries a fresh socket object, so a removed socket is never re-admitted. -/
def noRejoin (acc : Finset Nat) : List Event → Bool
  | [] => true
  | Event.wsConnect p :: evs => if p.id ∈ acc then false else noRejoin acc evs
  | Event.wsClose i :: evs => noRejoin (insert i acc) evs
  | Event.wsError i :: evs => noRejoin (insert i acc) evs
  | _ :: evs => noRejoin acc evs

def idsFinset (s : ServerState) : Finset Nat := (idsOf s.clients).toFinset

lemma noRejoin_not_admitted {acc : Finset Nat} :
    ∀ {evs : List Event}, noRejoin acc evs = true →
      ∀ j ∈ acc, j ∉ admittedIds evs := by
  intro evs
  induction evs generalizing acc with
  | nil => intro _ j _; simp [admittedIds]
  | cons e evs ih =>
    intro h j hj
    cases e with
    | wsConnect p =>
      simp only [noRejoin] at h
      by_cases hp : p.id ∈ acc
      · rw [if_pos hp] at h; exact absurd h (by simp)
      · rw [if_neg hp] at h
        simp only [admittedIds, Finset.mem_insert]
        rintro (rfl | hmem)
        · exact hp hj
        · exact ih h j hj hmem
    | wsClose i =>
      simp only [noRejoin] at h
      exact ih h j (Finset.mem_insert_of_mem hj)
    | wsError i =>
      simp only [noRejoin] at h
      exact ih h j (Finset.mem_insert_of_mem hj)
    | notify ch pl => exact ih h j hj
    | pgError => exact ih h j hj
    | pgEnd => exact ih h j hj
    | keepAliveFail => exact ih h j hj
    | reconnectFire => exact ih h j hj
    | connectResolve ok => exact ih h j hj

lemma step_clients_notify (s : ServerState) (ch : String) (pl : Option Json) :
    (step s (Event.notify ch pl)).clients = s.clients := by
  simp only [step]
  cases handleNotification s.clients ch pl with
  | none => rfl
  | some out => rfl

lemma step_clients_link (s : ServerState) :
    (step s Event.pgError).clients = s.clients
    ∧ (step s Event.pgEnd).clients = s.clients
    ∧ (step s Event.keepAliveFail).clients = s.clients
    ∧ (step s Event.reconnectFire).clients = s.clients
    ∧ ∀ ok, (step s (Event.connectResolve ok)).clients = s.clients := by
  refine ⟨?_, ?_, ?_, ?_, ?_⟩
  · simp only [step]; split
    · rw [scheduleReconnect_clients]
    · rfl
  · simp only [step]; split
    · rw [scheduleReconnect_clients]
    · rfl
  · simp only [step]; split
    · rw [scheduleReconnect_clients]
    · rfl
  · simp only [step]; split
    · rw [connectStart_clients]
    · rfl
  · intro ok
    simp only [step]; split
    · rw [connectResolve_clients]
    · rfl

lemma idsFinset_removeClient (s : ServerState) (i : Nat) :
    idsFinset (removeClient s i) = idsFinset s \ {i} := by
  ext j
  simp only [idsFinset, removeClient, idsOf, List.mem_toFinset, List.mem_map,
    Finset.mem_sdiff, Finset.mem_singleton, List.mem_filter]
  constructor
  · rintro ⟨c, ⟨hc, hne⟩, rfl⟩
    exact ⟨⟨c, hc, rfl⟩, by simpa using hne⟩
  · rintro ⟨⟨c, hc, rfl⟩, hne⟩
    exact ⟨c, ⟨hc, by simpa using hne⟩, rfl⟩

lemma nodup_removeClient {s : ServerState} (h : (idsOf s.clients).Nodup) (i : Nat) :
    (idsOf (removeClient s i).clients).Nodup := by
  simp only [removeClient, idsOf]
  exact List.Nodup.sublist (List.Sublist.map Peer.id (List.filter_sublist _)) h

/-- The registry's identity set along any trace is the initial set joined
with the admitted identities, minus the removed ones, and stays
duplicate-free — provided no removed identity is re-admitted. -/
lemma registry_set_eq :
    ∀ (evs : List Event) (s : ServerState) (acc : Finset Nat),
      noRejoin acc evs = true → (idsOf s.clients).Nodup →
      idsFinset (run s evs) = (idsFinset s ∪ admittedIds evs) \ removedIds evs
      ∧ (idsOf (run s evs).clients).Nodup := by
  intro evs
  induction evs with
  | nil =>
    intro s acc _ hnd
    simp only [run, admittedIds, removedIds]
    exact ⟨by simp, hnd⟩
  | cons e evs ih =>
    intro s acc h hnd
    have hrun : run s (e :: evs) = run (step s e) evs := rfl
    cases e with
    | wsConnect p =>
      simp only [noRejoin] at h
      by_cases hp : p.id ∈ acc
      · rw [if_pos hp] at h; exact absurd h (by simp)
      rw [if_neg hp] at h
      have hA : admittedIds (Event.wsConnect p :: evs) = insert p.id (admittedIds evs) := rfl
      have hR : removedIds (Event.wsConnect p :: evs) = removedIds evs := rfl
      by_cases hmem : p.id ∈ idsOf s.clients
      · have hcl : (step s (Event.wsConnect p)).clients = s.clients := by
          simp [step, onConnection, hmem]
        have hids : idsFinset (step s (Event.wsConnect p)) = idsFinset s := by
          simp [idsFinset, hcl]
        have hih := ih (step s (Event.wsConnect p)) acc h (by rw [hcl]; exact hnd)
        refine ⟨?_, hih.2⟩
        rw [hrun, hih.1, hids, hA, hR]
        congr 1
        have hin : p.id ∈ idsFinset s := by simpa [idsFinset] using hmem
        rw [Finset.union_insert, Finset.insert_eq_self.mpr (Finset.mem_union_left _ hin)]
      · have hcl : (step s (Event.wsConnect p)).clients = s.clients ++ [p] := by
          simp [step, onConnection, hmem]
        have hids : idsFinset (step s (Event.wsConnect p)) = insert p.id (idsFinset s) := by
          ext j
          simp [idsFinset, hcl, idsOf, or_comm]
        have hnd2 : (idsOf (step s (Event.wsConnect p)).clients).Nodup := by
          rw [hcl]
          simp only [idsOf, List.map_append, List.map_cons, List.map_nil]
          rw [List.nodup_append]
          refine ⟨hnd, List.nodup_singleton _, ?_⟩
          intro a ha hb
          simp only [List.mem_singleton] at hb
          exact hmem (hb ▸ ha)
        have hih := ih (step s (Event.wsConnect p)) acc h hnd2
        refine ⟨?_, hih.2⟩
        rw [hrun, hih.1, hids, hA, hR]
        congr 1
        rw [Finset.insert_union, Finset.union_insert]
    | wsClose i =>
      simp only [noRejoin] at h
      have hadm : i ∉ admittedIds evs :=
        noRejoin_not_admitted h i (Finset.mem_insert_self i _)
      have hids : idsFinset (step s (Event.wsClose i)) = idsFinset s \ {i} :=
        idsFinset_removeClient s i
      have hih := ih (step s (Event.wsClose i)) (insert i acc) h (nodup_removeClient hnd i)
      refine ⟨?_, hih.2⟩
      rw [hrun, hih.1, hids,
        show admittedIds (Event.wsClose i :: evs) = admittedIds evs from rfl,
        show removedIds (Event.wsClose i :: evs) = insert i (removedIds evs) from rfl]
      ext j
      simp only [Finset.mem_sdiff, Finset.mem_union, Finset.mem_singleton,
        Finset.mem_insert]
      constructor
      · rintro ⟨hjl | hjA, hr⟩
        · exact ⟨Or.inl hjl.1, fun hc => hc.elim hjl.2 hr⟩
        · exact ⟨Or.inr hjA, fun hc => hc.elim (fun he => hadm (he ▸ hjA)) hr⟩
      · rintro ⟨hj, hr⟩
        push_neg at hr
        rcases hj with hj | hj
        · exact ⟨Or.inl ⟨hj, hr.1⟩, hr.2⟩
        · exact ⟨Or.inr hj, hr.2⟩
    | wsError i =>
      simp only [noRejoin] at h
      have hadm : i ∉ admittedIds evs :=
        noRejoin_not_admitted h i (Finset.mem_insert_self i _)
      have hids : idsFinset (step s (Event.wsError i)) = idsFinset s \ {i} :=
        idsFinset_removeClient s i
      have hih := ih (step s (Event.wsError i)) (insert i acc) h (nodup_removeClient hnd i)
      refine ⟨?_, hih.2⟩
      rw [hrun, hih.1, hids,
        show admittedIds (Event.wsError i :: evs) = admittedIds evs from rfl,
        show removedIds (Event.wsError i :: evs) = insert i (removedIds evs) from rfl]
      ext j
      simp only [Finset.mem_sdiff, Finset.mem_union, Finset.mem_singleton,
        Finset.mem_insert]
      constructor
      · rintro ⟨hjl | hjA, hr⟩
        · exact ⟨Or.inl hjl.1, fun hc => hc.elim hjl.2 hr⟩
        · exact ⟨Or.inr hjA, fun hc => hc.elim (fun he => hadm (he ▸ hjA)) hr⟩
      · rintro ⟨hj, hr⟩
        push_neg at hr
        rcases hj with hj | hj
        · exact ⟨Or.inl ⟨hj, hr.1⟩, hr.2⟩
        · exact ⟨Or.inr hj, hr.2⟩
    | notify ch pl =>
      simp only [noRejoin] at h
      have hcl := step_clients_notify s ch pl
      have hih := ih (step s (Event.notify ch pl)) acc h (by rw [hcl]; exact hnd)
      refine ⟨?_, hih.2⟩
      rw [hrun, hih.1,
        show admittedIds (Event.notify ch pl :: evs) = admittedIds evs from rfl,
        show removedIds (Event.notify ch pl :: evs) = removedIds evs from rfl,
        show idsFinset (step s (Event.notify ch pl)) = idsFinset s from by
          simp [idsFinset, hcl]]
    | pgError =>
      simp only [noRejoin] at h
      have hcl := (step_clients_link s).1
      have hih := ih (step s Event.pgError) acc h (by rw [hcl]; exact hnd)
      refine ⟨?_, hih.2⟩
      rw [hrun, hih.1,
        show admittedIds (Event.pgError :: evs) = admittedIds evs from rfl,
        show removedIds (Event.pgError :: evs) = removedIds evs from rfl,
        show idsFinset (step s Event.pgError) = idsFinset s from by
          simp [idsFinset, hcl]]
    | pgEnd =>
      simp only [noRejoin] at h
      have hcl := (step_clients_link s).2.1
      have hih := ih (step s Event.pgEnd) acc h (by rw [hcl]; exact hnd)
      refine ⟨?_, hih.2⟩
      rw [hrun, hih.1,
        show admittedIds (Event.pgEnd :: evs) = admittedIds evs from rfl,
        show removedIds (Event.pgEnd :: evs) = removedIds evs from rfl,
        show idsFinset (step s Event.pgEnd) = idsFinset s from by
          simp [idsFinset, hcl]]
    | keepAliveFail =>
      simp only [noRejoin] at h
      have hcl := (step_clients_link s).2.2.1
      have hih := ih (step s Event.keepAliveFail) acc h (by rw [hcl]; exact hnd)
      refine ⟨?_, hih.2⟩
      rw [hrun, hih.1,
        show admittedIds (Event.keepAliveFail :: evs) = admittedIds evs from rfl,
        show removedIds (Event.keepAliveFail :: evs) = removedIds evs from rfl,
        show idsFinset (step s Event.keepAliveFail) = idsFinset s from by
          simp [idsFinset, hcl]]
    | reconnectFire =>
      simp only [noRejoin] at h
      have hcl := (step_clients_link s).2.2.2.1
      have hih := ih (step s Event.reconnectFire) acc h (by rw [hcl]; exact hnd)
      refine ⟨?_, hih.2⟩
      rw [hrun, hih.1,
        show admittedIds (Event.reconnectFire :: evs) = admittedIds evs from rfl,
        show removedIds (Event.reconnectFire :: evs) = removedIds evs from rfl,
        show idsFinset (step s Event.reconnectFire) = idsFinset s from by
          simp [idsFinset, hcl]]
    | connectResolve ok =>
      simp only [noRejoin] at h
      have hcl := (step_clients_link s).2.2.2.2 ok
      have hih := ih (step s (Event.connectResolve ok)) acc h (by rw [hcl]; exact hnd)
      refine ⟨?_, hih.2⟩
      rw [hrun, hih.1,
        show admittedIds (Event.connectResolve ok :: evs) = admittedIds evs from rfl,
        show removedIds (Event.connectResolve ok :: evs) = removedIds evs from rfl,
        show idsFinset (step s (Event.connectResolve ok)) = idsFinset s from by
          simp [idsFinset, hcl]]

/-- C6.  For every event trace from the empty registry in which no removed
identity is later re-admitted (true of the Gateway, which admits a fresh
socket object per connection event): the registry's identity set
afterwards is exactly the admitted identities minus the removed ones
(removed by close, transport error, or any other path), with no duplicate
entries; moreover `clients.add` of an already-present peer and
`clients.delete` of an absent peer are idempotent no-ops on the registry
(both are `Set` operations and raise nothing). -/
theorem claim_C6_registry (evs : List Event) (h : noRejoin ∅ evs = true) :
    idsFinset (run initState evs) = admittedIds evs \ removedIds evs
    ∧ (idsOf (run initState evs).clients).Nodup
    ∧ (∀ (st : ServerState) (p : Peer), p.id ∈ idsOf st.clients →
        (step st (Event.wsConnect p)).clients = st.clients)
    ∧ (∀ (st : ServerState) (i : Nat), i ∉ idsOf st.clients →
        (step st (Event.wsClose i)).clients = st.clients
        ∧ (step st (Event.wsError i)).clients = st.clients) := by
  have hmain := registry_set_eq evs initState ∅ h (by simp [initState, idsOf])
  refine ⟨?_, hmain.2, ?_, ?_⟩
  · rw [hmain.1]
    simp [idsFinset, initState, idsOf]
  · intro st p hmem
    simp [step, onConnection, hmem]
  · intro st i hmem
    have hall : ∀ a ∈ st.clients, ¬a.id = i := by
      intro a ha hai
      exact hmem (List.mem_map.mpr ⟨a, ha, hai⟩)
    exact ⟨by simp only [step, removeClient]; simp; exact hall,
      by simp only [step, removeClient]; simp; exact hall⟩

/-- Witness for C6: peers 1 and 2 admitted, a broadcast interleaved, peer
1 removed; the final registry identity set is exactly the difference
\x7b1,2\x7d \ \x7b1\x7d, duplicate-free, and concrete no-op instances of
re-admit and absent-remove hold. -/
theorem claim_C6_registry_witness :
    idsFinset (run initState [Event.wsConnect ⟨1, ReadyState.OPEN, false⟩,
        Event.wsConnect ⟨2, ReadyState.OPEN, false⟩,
        Event.notify "comments_channel" (some Json.null), Event.wsClose 1])
      = admittedIds [Event.wsConnect ⟨1, ReadyState.OPEN, false⟩,
          Event.wsConnect ⟨2, ReadyState.OPEN, false⟩,
          Event.notify "comments_channel" (some Json.null), Event.wsClose 1]
        \ removedIds [Event.wsConnect ⟨1, ReadyState.OPEN, false⟩,
          Event.wsConnect ⟨2, ReadyState.OPEN, false⟩,
          Event.notify "comments_channel" (some Json.null), Event.wsClose 1]
    ∧ (step { initState with clients := [⟨2, ReadyState.OPEN, false⟩] }
        (Event.wsConnect ⟨2, ReadyState.OPEN, false⟩)).clients
      = [⟨2, ReadyState.OPEN, false⟩]
    ∧ (step { initState with clients := [⟨2, ReadyState.OPEN, false⟩] }
        (Event.wsClose 9)).clients = [⟨2, ReadyState.OPEN, false⟩] := by
  have h := claim_C6_registry [Event.wsConnect ⟨1, ReadyState.OPEN, false⟩,
    Event.wsConnect ⟨2, ReadyState.OPEN, false⟩,
    Event.notify "comments_channel" (some Json.null), Event.wsClose 1] (by decide)
  refine ⟨h.1, ?_, ?_⟩
  · exact h.2.2.1 { initState with clients := [⟨2, ReadyState.OPEN, false⟩] }
      ⟨2, ReadyState.OPEN, false⟩ (by decide)
  · exact (h.2.2.2 { initState with clients := [⟨2, ReadyState.OPEN, false⟩] } 9
      (by decide)).1

/-! ## Delivery log monotonicity -/

lemma step_deliveries_extend (s : ServerState) (e : Event) :
    ∃ t, (step s e).deliveries = s.deliveries ++ t := by
  cases e with
  | wsConnect p => exact ⟨_, rfl⟩
  | wsClose i => exact ⟨[], by simp [step, removeClient]⟩
  | wsError i => exact ⟨[], by simp [step, removeClient]⟩
  | notify ch pl =>
    simp only [step]
    cases handleNotification s.clients ch pl with
    | none => exact ⟨[], by simp⟩
    | some out => exact ⟨out.delivered, rfl⟩
  | pgError =>
    simp only [step]
    split
    · exact ⟨[], by rw [scheduleReconnect_deliveries]; simp⟩
    · exact ⟨[], by simp⟩
  | pgEnd =>
    simp only [step]
    split
    · exact ⟨[], by rw [scheduleReconnect_deliveries]; simp⟩
    · exact ⟨[], by simp⟩
  | keepAliveFail =>
    simp only [step]
    split
    · exact ⟨[], by rw [scheduleReconnect_deliveries]; simp⟩
    · exact ⟨[], by simp⟩
  | reconnectFire =>
    simp only [step]
    split
    · exact ⟨[], by rw [connectStart_deliveries]; simp⟩
    · exact ⟨[], by simp⟩
  | connectResolve ok =>
    simp only [step]
    split
    · exact ⟨[], by rw [connectResolve_deliveries]; simp⟩
    · exact ⟨[], by simp⟩

lemma run_deliveries_extend (evs : List Event) :
    ∀ s : ServerState, ∃ t, (run s evs).deliveries = s.deliveries ++ t := by
  induction evs with
  | nil => exact fun s => ⟨[], by simp [run]⟩
  | cons e evs ih =>
    intro s
    rcases step_deliveries_extend s e with ⟨t1, h1⟩
    rcases ih (step s e) with ⟨t2, h2⟩
    exact ⟨t1 ++ t2, by rw [show run s (e :: evs) = run (step s e) evs from rfl, h2, h1,
      List.append_assoc]⟩

lemma inbox_extend {s2 s : ServerState} {t : List (Nat × String)} (i : Nat)
    (h : s2.deliveries = s.deliveries ++ t) :
    inbox i s2 = inbox i s ++ (t.filter (fun d => d.1 = i)).map (fun d => d.2) := by
  simp [inbox, h, List.filter_append]

/-- C8.  The connection handler runs `clients.add(ws)` and then,
synchronously in the same handler body, `ws.send` of exactly
`{"type":"CONNECTION_ESTABLISHED","message":"Connected!"}` — so after
admission of a fresh peer the peer is registered, its inbox holds exactly
that handshake message, and whatever broadcasts any later events produce,
the handshake stays the first message the peer ever received. -/
theorem claim_C8_handshake (s : ServerState) (p : Peer) (evs : List Event)
    (hfresh : p.id ∉ idsOf s.clients) (hinbox : inbox p.id s = [])
    (hok : p.sendFails = false) :
    connEstablishedMsg
      = "\x7b\"type\":\"CONNECTION_ESTABLISHED\",\"message\":\"Connected!\"\x7d"
    ∧ p.id ∈ idsOf (step s (Event.wsConnect p)).clients
    ∧ inbox p.id (step s (Event.wsConnect p)) = [connEstablishedMsg]
    ∧ (inbox p.id (run (step s (Event.wsConnect p)) evs)).head?
      = some connEstablishedMsg := by
  have hstep : inbox p.id (step s (Event.wsConnect p)) = [connEstablishedMsg] := by
    have : (step s (Event.wsConnect p)).deliveries
        = s.deliveries ++ [(p.id, connEstablishedMsg)] := by
      simp [step, onConnection, hok]
    rw [inbox_extend p.id this, hinbox]
    simp
  refine ⟨rfl, ?_, hstep, ?_⟩
  · have hcl : (step s (Event.wsConnect p)).clients = s.clients ++ [p] := by
      simp only [step, onConnection]
      rw [if_neg hfresh]
    rw [hcl]
    simp [idsOf]
  · rcases run_deliveries_extend evs (step s (Event.wsConnect p)) with ⟨t, ht⟩
    rw [inbox_extend p.id ht, hstep]
    rfl

/-- Witness for C8: a fresh peer (id 4) connecting to the pristine server;
its inbox after admission is exactly the handshake message, and it is
still the first message after a later broadcast. -/
theorem claim_C8_handshake_witness :
    inbox 4 (step initState (Event.wsConnect ⟨4, ReadyState.OPEN, false⟩))
      = [connEstablishedMsg]
    ∧ (inbox 4 (run (step initState (Event.wsConnect ⟨4, ReadyState.OPEN, false⟩))
        [Event.notify "comments_channel" (some Json.null)])).head?
      = some connEstablishedMsg := by
  have h := claim_C8_handshake initState ⟨4, ReadyState.OPEN, false⟩
    [Event.notify "comments_channel" (some Json.null)] (by decide) (by decide) rfl
  exact ⟨h.2.2.1, h.2.2.2⟩

/-- Counterexample to C9 as stated: the SIGINT handler contains no
`clearInterval` or `clearTimeout` — on a state with one armed keepalive
interval and one pending reconnect timeout (reached by a keepalive failure
after a successful startup), shutdown cancels neither. -/
theorem claim_C9_counterexample :
    ¬ (((sigintHandler (reachedState true [Event.keepAliveFail]) false).1.reconnectPending
          = 0)
        ∧ ((sigintHandler (reachedState true [Event.keepAliveFail])
            false).1.keepAlivePending = 0)) := by
  decide

/-- C9 amended: the SIGINT handler exits with code 0 in every state and
for either outcome of `pgClient.end()` (a close error is caught, logged
and swallowed), closes the link when a live client exists and the close
succeeds, is a no-op-then-exit when no client was ever created (safe
before any successful connection), and cancels no timer — the keepalive
bookkeeping is untouched and the pending reconnect count never
decreases; moreover closing a live client makes it emit `end`, whose
handler runs `scheduleReconnect()` before `process.exit(0)`, so shutdown
on a healthy link with no reconnect pending arms one more reconnect
timeout (discarded only by the exit itself). -/
theorem claim_C9_amended (s : ServerState) (endFails : Bool) :
    (sigintHandler s endFails).2 = 0
    ∧ (s.pgClientExists = true → endFails = false → s.pgLive = true →
        (sigintHandler s endFails).1.linkSubscribed = false
        ∧ (sigintHandler s endFails).1.pgLive = false)
    ∧ (sigintHandler s endFails).1.keepAlivePending = s.keepAlivePending
    ∧ (sigintHandler s endFails).1.keepAliveVar = s.keepAliveVar
    ∧ s.reconnectPending ≤ (sigintHandler s endFails).1.reconnectPending
    ∧ (s.pgClientExists = true → endFails = false → s.pgLive = true →
        s.reconnectTimerVar = false →
        (sigintHandler s endFails).1.reconnectPending = s.reconnectPending + 1)
    ∧ sigintHandler initState endFails = (initState, 0) := by
  refine ⟨rfl, ?_, ?_, ?_, ?_, ?_, ?_⟩
  · intro hpg hef hlive
    simp only [sigintHandler, hpg, hef, hlive, Bool.not_false, Bool.and_self, if_true]
    rw [scheduleReconnect_link, scheduleReconnect_pgLive]
    exact ⟨rfl, rfl⟩
  · unfold sigintHandler
    split
    · rw [scheduleReconnect_keepAlive]
    · rfl
  · unfold sigintHandler
    split
    · rw [scheduleReconnect_keepAliveVar]
    · rfl
  · unfold sigintHandler
    split
    · show s.reconnectPending ≤ (scheduleReconnect _).reconnectPending
      unfold scheduleReconnect
      split
      · exact Nat.le.refl
      · exact Nat.le_succ _
    · exact Nat.le.refl
  · intro hpg hef hlive hv
    unfold sigintHandler
    split
    next => exact (scheduleReconnect_arm
      (s := { s with linkSubscribed := false, pgLive := false }) hv).1
    next hc =>
      exact absurd (show (s.pgClientExists && !endFails && s.pgLive) = true by
        simp [hpg, hef, hlive]) hc
  · simp [sigintHandler, initState]

/-- Witness for C9 amended: shutdown right after a failed startup attempt
exits 0; shutdown before any connection attempt leaves the pristine state
and exits 0; after a successful startup a clean close takes the link down
and arms exactly one reconnect timeout before the exit. -/
theorem claim_C9_amended_witness :
    (sigintHandler (reachedState false []) true).2 = 0
    ∧ sigintHandler initState true = (initState, 0)
    ∧ (sigintHandler (reachedState true []) false).1.linkSubscribed = false
    ∧ (sigintHandler (reachedState true []) false).1.reconnectPending
      = (reachedState true []).reconnectPending + 1 := by
  refine ⟨(claim_C9_amended (reachedState false []) true).1,
    (claim_C9_amended initState true).2.2.2.2.2.2, ?_, ?_⟩
  · exact ((claim_C9_amended (reachedState true []) false).2.1 (by decide) rfl
      (by decide)).1
  · exact (claim_C9_amended (reachedState true []) false).2.2.2.2.2.1 (by decide) rfl
      (by decide) (by decide)
